import Mathlib

/-
Verification development for the cli-bridge repository: an HTTP-to-CLI bridge that
spawns a provider CLI subprocess per chat request and re-emits its stdout as an SSE
stream.  The two entry points (`index.mjs` and the Router variant) share the same
streaming pipeline; the definitions below embed that pipeline and the request
handling front end, at the level of character lists (JS strings) and explicit
session state.
-/

namespace CliBridge

/-- Truthiness of an optional JS string field: `undefined` (modelled as `none`) and the
empty string are falsy, every other string is truthy. -/
def jsTruthy : Option String → Bool
  | none => false
  | some s => s != ""

/-- Whitespace characters stripped by JS `String.prototype.trim` (ASCII whitespace and
line terminators, the ones that occur in CLI output). -/
def isJsWs (c : Char) : Bool :=
  c == ' ' || c == '\t' || c == '\n' || c == '\r' || c == Char.ofNat 11 || c == Char.ofNat 12

/-- Model of JS `line.trim()` on a character list: strip whitespace from both ends. -/
def jsTrim (s : List Char) : List Char :=
  ((s.dropWhile isJsWs).reverse.dropWhile isJsWs).reverse

/-- Prepend a segment onto the first element of a segment list (helper used to define
newline splitting; on the empty list it yields the singleton). -/
def consHead (x : List Char) : List (List Char) → List (List Char)
  | [] => [x]
  | y :: ys => (x ++ y) :: ys

/-- Model of JS `buffer.split('\n')` on a character list: the newline-separated
segments, so `"a\n"` splits to `["a", ""]` and `""` splits to `[""]`; the result is
never empty. -/
def splitNl : List Char → List (List Char)
  | [] => [[]]
  | c :: cs => if c = '\n' then [] :: splitNl cs else consHead [c] (splitNl cs)

/-- Fragments emitted for one complete line inside the stdout data handler of a
JSON-mode provider (the `for (const line of lines)` loop): a line that is blank after
trimming is skipped (`if (!line.trim()) continue`); otherwise the provider's
`parseStream` runs (`parse line = none` models a thrown `JSON.parse` exception, `some
frags` the texts passed to `emit` in order); on parse failure the fallback forwards the
trimmed line plus a trailing newline unless it is empty or starts with `'{'` or `'['`,
in which case it is dropped. -/
def lineFragments (parse : List Char → Option (List (List Char))) (line : List Char) :
    List (List Char) :=
  if jsTrim line = [] then []
  else
    match parse line with
    | some frags => frags
    | none =>
      let trimmed := jsTrim line
      if trimmed ≠ [] ∧ trimmed.head? ≠ some '{' ∧ trimmed.head? ≠ some '[' then
        [trimmed ++ ['\n']]
      else []

/-- Concatenated fragments for a list of complete dispatched lines, in order. -/
def dataFrags (parse : List Char → Option (List (List Char)))
    (lines : List (List Char)) : List (List Char) :=
  (lines.map (lineFragments parse)).flatten

/-- Whether dispatching these lines fires the `emit` callback (or the fallback write) at
least once; each such firing sets `textSent := true` in the source. -/
def anyEmit (parse : List Char → Option (List (List Char)))
    (lines : List (List Char)) : Bool :=
  lines.any (fun l => !(lineFragments parse l).isEmpty)

/-- One write to the SSE response: a `data:` event with a `text` payload, a `data:`
event with an `error` payload, or the literal terminal marker `data: [DONE]`. -/
inductive SSEWrite where
  | text (s : List Char)
  | errorEv (s : List Char)
  | done
  deriving DecidableEq

/-- Error message written by the spawn-error handler, naming the provider. -/
def failMsg (pname : List Char) : List Char :=
  "Failed to start ".data ++ pname ++ " CLI. Is it installed?".data

/-- State owned by one SubprocessSession: the rolling partial-line buffer, the
`textSent` flag, whether the child process has ended, whether `proc.kill` has
successfully signalled it (`proc.killed`), whether `res.end()` has run, the sequence of
writes that reached the response, and the number of termination signals delivered. -/
structure SessionState where
  buffer : List Char
  textSent : Bool
  procExited : Bool
  procKilled : Bool
  resEnded : Bool
  wire : List SSEWrite
  sigterms : Nat
  deriving DecidableEq

/-- Events delivered to the session's registered handlers: a stdout `data` chunk, the
child `close` event (with exit code), the child `error` event (spawn failure), and the
response `close` event (client disconnected). -/
inductive Ev where
  | data (chunk : List Char)
  | close (code : Int)
  | err
  | resClose
  deriving DecidableEq

/-- Append writes to the response wire unless `res.end()` has already run (a write on an
ended response is not delivered). -/
def emitWrites (st : SessionState) (outs : List SSEWrite) : SessionState :=
  if st.resEnded then st else { st with wire := st.wire ++ outs }

/-- Fragments written while flushing the residual buffer in the `close` handler,
together with whether the `emit` callback fired (only a successful `parseStream` call
sets `textSent` there): nothing when the trimmed buffer is empty; in plain-text mode
the trimmed buffer; otherwise the parser's output on success, and on failure the
trimmed buffer as a last resort only when `textSent` is still false. -/
def closeFrags (parse : List Char → Option (List (List Char))) (plain : Bool)
    (buffer : List Char) (textSent : Bool) : List (List Char) × Bool :=
  if jsTrim buffer = [] then ([], false)
  else if plain then ([jsTrim buffer], false)
  else
    match parse buffer with
    | some frags => (frags, !frags.isEmpty)
    | none => (if textSent then [] else [jsTrim buffer], false)

/-- One step of the session: the handler the source registers for the given event.
`parse` is the provider's `parseStream`, `plain` is `!cliTool.parseStream` (plain-text
mode), `pname` the provider name used in the spawn-error message. -/
def step (parse : List Char → Option (List (List Char))) (plain : Bool)
    (pname : List Char) (st : SessionState) : Ev → SessionState
  | .data chunk =>
    if plain then
      if chunk ≠ [] then emitWrites { st with textSent := true } [.text chunk] else st
    else
      let segs := splitNl (st.buffer ++ chunk)
      emitWrites
        { st with
          buffer := segs.getLastD [],
          textSent := st.textSent || anyEmit parse segs.dropLast }
        ((dataFrags parse segs.dropLast).map SSEWrite.text)
  | .close _ =>
    let fl := closeFrags parse plain st.buffer st.textSent
    let st' := emitWrites st (fl.1.map SSEWrite.text ++ [SSEWrite.done])
    { st' with textSent := st.textSent || fl.2, procExited := true, resEnded := true }
  | .err =>
    let st' := emitWrites st [SSEWrite.errorEv (failMsg pname), SSEWrite.done]
    { st' with procExited := true, resEnded := true }
  | .resClose =>
    if !st.procKilled then
      if st.procExited then st
      else { st with procKilled := true, sigterms := st.sigterms + 1 }
    else st

/-- Run the session's handlers over a sequence of delivered events. -/
def runSession (parse : List Char → Option (List (List Char))) (plain : Bool)
    (pname : List Char) (st : SessionState) (evs : List Ev) : SessionState :=
  evs.foldl (step parse plain pname) st

/-- Session state right after the request is accepted, before any handler fires. -/
def initState : SessionState :=
  { buffer := [], textSent := false, procExited := false, procKilled := false,
    resEnded := false, wire := [], sigterms := 0 }

/-- Recognizer for the terminal marker among SSE writes. -/
def isDone : SSEWrite → Bool
  | .done => true
  | _ => false

/-- Number of terminal markers on the wire. -/
def countDone (w : List SSEWrite) : Nat := w.countP isDone

/-- Event sequences one child process delivers per Node semantics: either stdout data
events followed by exactly one `close`, or (spawn failure) an `error` event followed by
`close` — Node's `close` always fires after `exit`, or after `error` when the child
failed to spawn. -/
def ProcShape (t : List Ev) : Prop :=
  (∃ (chunks : List (List Char)) (code : Int), t = chunks.map Ev.data ++ [Ev.close code]) ∨
  (∃ code, t = [Ev.err, Ev.close code])

/-- A complete session trace: a process-shaped event sequence with at most one response
`close` (client cancellation) event inserted at an arbitrary position. -/
def Admissible (t : List Ev) : Prop :=
  ProcShape t ∨ ∃ t₁ t₂, ProcShape (t₁ ++ t₂) ∧ t = t₁ ++ Ev.resClose :: t₂

/-- Unicode replacement character produced by `Buffer.toString` for invalid UTF-8. -/
def replacementChar : Char := Char.ofNat 0xFFFD

/-- Decoder state of the WHATWG UTF-8 decoder: continuation bytes still needed, the
code point accumulated so far, and the admissible range for the next byte. -/
structure Utf8State where
  needed : Nat
  codepoint : Nat
  lower : Nat
  upper : Nat
  deriving DecidableEq

/-- Initial (between code points) decoder state. -/
def utf8Init : Utf8State := ⟨0, 0, 0x80, 0xBF⟩

/-- Handling of one byte in the lead position: ASCII and the two-, three- and
four-byte lead ranges, with the WHATWG boundary adjustments that exclude overlong
forms and surrogates; anything else is invalid and decodes to U+FFFD. -/
def utf8Lead (b : Nat) : Utf8State × List Char :=
  if b ≤ 0x7F then (utf8Init, [Char.ofNat b])
  else if 0xC2 ≤ b ∧ b ≤ 0xDF then (⟨1, b - 0xC0, 0x80, 0xBF⟩, [])
  else if 0xE0 ≤ b ∧ b ≤ 0xEF then
    (⟨2, b - 0xE0, if b = 0xE0 then 0xA0 else 0x80, if b = 0xED then 0x9F else 0xBF⟩, [])
  else if 0xF0 ≤ b ∧ b ≤ 0xF4 then
    (⟨3, b - 0xF0, if b = 0xF0 then 0x90 else 0x80, if b = 0xF4 then 0x8F else 0xBF⟩, [])
  else (utf8Init, [replacementChar])

/-- One step of the WHATWG UTF-8 decoder: a byte that is not a valid continuation of a
pending sequence emits U+FFFD for the pending sequence and is reprocessed as a lead
byte. -/
def utf8Step (st : Utf8State) (b : Nat) : Utf8State × List Char :=
  if st.needed = 0 then utf8Lead b
  else if st.lower ≤ b ∧ b ≤ st.upper then
    let cp := st.codepoint * 64 + (b - 0x80)
    if st.needed = 1 then (utf8Init, [Char.ofNat cp])
    else (⟨st.needed - 1, cp, 0x80, 0xBF⟩, [])
  else
    let l := utf8Lead b
    (l.1, replacementChar :: l.2)

/-- WHATWG UTF-8 decoding with replacement, modelling Node's `Buffer.toString('utf8')`
as the stdout data handler applies it to each raw byte chunk in isolation
(`buffer += data.toString()`): malformed sequences decode to U+FFFD, and a sequence
truncated at the end of the chunk also decodes to U+FFFD. -/
def utf8Decode (bytes : List Nat) : List Char :=
  let r := bytes.foldl
    (fun acc b =>
      let s := utf8Step acc.1 b
      (s.1, acc.2 ++ s.2))
    (utf8Init, ([] : List Char))
  r.2 ++ (if r.1.needed = 0 then [] else [replacementChar])

/-- The stdout data handler at the transport level: Node delivers a raw byte Buffer and
the handler decodes it in isolation with `data.toString()` before appending it to the
rolling buffer. -/
def stepBytes (parse : List Char → Option (List (List Char))) (plain : Bool)
    (pname : List Char) (st : SessionState) (chunk : List Nat) : SessionState :=
  step parse plain pname st (.data (utf8Decode chunk))

/-- One chat message from the request body; `role = none` models a missing role field. -/
structure Message where
  role : Option String
  content : String
  deriving DecidableEq

/-- The messages field of the JSON body: absent (or another falsy value), present but
not an array, or an array of messages. -/
inductive MessagesField where
  | missing
  | notArray
  | arr (ms : List Message)
  deriving DecidableEq

/-- Fields of the POST /chat JSON body that the handler reads; `none` models an absent
field. -/
structure ChatBody where
  provider : Option String
  tool : Option String
  model : Option String
  messages : MessagesField
  systemPrompt : Option String

/-- The validation test `!messages || !Array.isArray(messages) || messages.length === 0`:
absent, non-array and empty-array messages all fail it. -/
def messagesInvalid : MessagesField → Bool
  | .missing => true
  | .notArray => true
  | .arr ms => ms.isEmpty

/-- Messages list of a body that passed validation. -/
def msgsOf : MessagesField → List Message
  | .arr ms => ms
  | _ => []

/-- One registry entry (a CLI_TOOLS value): binary name, argument builder, prompt
delivery mode, whether the system prompt is embedded into the prompt text, and whether
parseStream is null (plain-text mode). -/
structure CliTool where
  command : String
  buildArgs : Option String → Option String → List String
  inputMode : String
  embedSystemPrompt : Bool
  plainText : Bool

/-- Model of `if (x) args.push(flag, x)` inside a buildArgs body (JS truthiness: both
an absent and an empty-string value skip the flag). -/
def pushIf (flag : String) (v : Option String) : List String :=
  match v with
  | some s => if s = "" then [] else [flag, s]
  | none => []

/-- CLI_TOOLS.claude of the Router entry point: stdin delivery, system prompt via the
dedicated `--system-prompt` flag, JSON stream parsing. -/
def claudeTool : CliTool :=
  { command := "claude",
    buildArgs := fun model systemPrompt =>
      ["-p", "--output-format", "stream-json", "--verbose"]
        ++ pushIf "--model" model ++ pushIf "--system-prompt" systemPrompt,
    inputMode := "stdin",
    embedSystemPrompt := false,
    plainText := false }

/-- CLI_TOOLS.codex of the Router entry point: buildArgs ignores the system prompt,
which is embedded into the prompt text instead. -/
def codexTool : CliTool :=
  { command := "codex",
    buildArgs := fun model _ => ["exec", "--json"] ++ pushIf "--model" model,
    inputMode := "stdin",
    embedSystemPrompt := true,
    plainText := false }

/-- CLI_TOOLS.gemini of the Router entry point: plain-text mode (parseStream is null),
prompt delivered as a trailing argument, system prompt embedded. -/
def geminiTool : CliTool :=
  { command := "gemini",
    buildArgs := fun model _ => pushIf "--model" model,
    inputMode := "arg",
    embedSystemPrompt := true,
    plainText := true }

/-- The provider registry of the Router entry point, in insertion order. -/
def CLI_TOOLS : List (String × CliTool) :=
  [("claude", claudeTool), ("codex", codexTool), ("gemini", geminiTool)]

/-- Rendering of one message inside the prompt construction:
`m.role === 'user' ? 'User' : 'Assistant'` followed by `": "` and the content. -/
def renderMessage (m : Message) : String :=
  (if m.role = some "user" then "User" else "Assistant") ++ ": " ++ m.content

/-- JS Array.prototype.join with the given separator. -/
def joinSep (sep : String) : List String → String
  | [] => ""
  | [x] => x
  | x :: y :: xs => x ++ sep ++ joinSep sep (y :: xs)

/-- Prompt construction of the Router entry point: render and join the messages with a
blank line; when the tool embeds the system prompt and a truthy one is supplied,
prepend the `System instructions:` header and a blank line. -/
def buildPrompt (cliTool : CliTool) (messages : List Message)
    (systemPrompt : Option String) : String :=
  let prompt := joinSep "\n\n" (messages.map renderMessage)
  if cliTool.embedSystemPrompt && jsTruthy systemPrompt then
    "System instructions: " ++ systemPrompt.getD "" ++ "\n\n" ++ prompt
  else prompt

/-- Observable actions of the /chat handler up to subprocess creation, in program
order; a validation failure produces only the 400 JSON response. -/
inductive Effect where
  | status400 (error : String) (available : Option (List String))
  | setHeader (name value : String)
  | flushHeaders
  | spawn (command : String) (args : List String)
  | stdinWrite (s : String)
  | stdinEnd
  deriving DecidableEq

/-- Provider selection of the Router entry point:
`const providerName = provider || tool || 'claude'`. -/
def providerNameOf (b : ChatBody) : String :=
  if jsTruthy b.provider then b.provider.getD ""
  else if jsTruthy b.tool then b.tool.getD "" else "claude"

/-- The /chat handler of the Router entry point up to subprocess creation: validate the
messages field, look the provider up, build the prompt and argv, set the three SSE
headers, flush them, spawn, and deliver the prompt on stdin when inputMode is stdin
(for inputMode arg the prompt is appended to argv after `-p`). -/
def chatEffects (b : ChatBody) : List Effect :=
  let providerName := providerNameOf b
  if messagesInvalid b.messages then [.status400 "messages array required" none]
  else
    match List.lookup providerName CLI_TOOLS with
    | none =>
      [.status400 ("Unknown provider: " ++ providerName) (some (CLI_TOOLS.map Prod.fst))]
    | some cliTool =>
      let prompt := buildPrompt cliTool (msgsOf b.messages) b.systemPrompt
      let args0 := cliTool.buildArgs b.model b.systemPrompt
      let args := if cliTool.inputMode = "arg" then args0 ++ ["-p", prompt] else args0
      [.setHeader "Content-Type" "text/event-stream",
       .setHeader "Cache-Control" "no-cache",
       .setHeader "Connection" "keep-alive",
       .flushHeaders,
       .spawn cliTool.command args]
        ++ (if cliTool.inputMode = "stdin" then [.stdinWrite prompt, .stdinEnd] else [])

namespace IndexMjs

/-- CLI_TOOLS.claude of index.mjs: same argument builder as the Router variant; the
entry has no embedSystemPrompt field, which reads as undefined (falsy). -/
def claudeTool : CliTool :=
  { command := "claude",
    buildArgs := fun model systemPrompt =>
      ["-p", "--output-format", "stream-json", "--verbose"]
        ++ pushIf "--model" model ++ pushIf "--system-prompt" systemPrompt,
    inputMode := "stdin",
    embedSystemPrompt := false,
    plainText := false }

/-- CLI_TOOLS.codex of index.mjs: the system prompt goes to a dedicated
`--instructions` flag. -/
def codexTool : CliTool :=
  { command := "codex",
    buildArgs := fun model systemPrompt =>
      ["exec", "--json"] ++ pushIf "--model" model ++ pushIf "--instructions" systemPrompt,
    inputMode := "stdin",
    embedSystemPrompt := false,
    plainText := false }

/-- CLI_TOOLS.gemini of index.mjs: JSON streaming mode, prompt as a trailing argument,
system prompt via a dedicated `--system-instruction` flag. -/
def geminiTool : CliTool :=
  { command := "gemini",
    buildArgs := fun model systemPrompt =>
      ["--output-format", "stream-json"]
        ++ pushIf "--model" model ++ pushIf "--system-instruction" systemPrompt,
    inputMode := "arg",
    embedSystemPrompt := false,
    plainText := false }

/-- The provider registry of index.mjs, in insertion order. -/
def CLI_TOOLS : List (String × CliTool) :=
  [("claude", claudeTool), ("codex", codexTool), ("gemini", geminiTool)]

/-- Provider selection of index.mjs: `const { provider = 'claude', ... } = req.body` —
the destructuring default applies only when the field is absent, and the tool field is
never read. -/
def providerNameOf (b : ChatBody) : String := b.provider.getD "claude"

/-- Prompt construction in index.mjs: map and join only; no system-prompt embedding
branch exists in this entry point. -/
def buildPrompt (messages : List Message) : String :=
  joinSep "\n\n" (messages.map renderMessage)

/-- The /chat handler of index.mjs up to subprocess creation. -/
def chatEffects (b : ChatBody) : List Effect :=
  if messagesInvalid b.messages then [.status400 "messages array required" none]
  else
    match List.lookup (providerNameOf b) CLI_TOOLS with
    | none =>
      [.status400 ("Unknown provider: " ++ providerNameOf b)
        (some (CLI_TOOLS.map Prod.fst))]
    | some cliTool =>
      let prompt := buildPrompt (msgsOf b.messages)
      let args0 := cliTool.buildArgs b.model b.systemPrompt
      let args := if cliTool.inputMode = "arg" then args0 ++ ["-p", prompt] else args0
      [.setHeader "Content-Type" "text/event-stream",
       .setHeader "Cache-Control" "no-cache",
       .setHeader "Connection" "keep-alive",
       .flushHeaders,
       .spawn cliTool.command args]
        ++ (if cliTool.inputMode = "stdin" then [.stdinWrite prompt, .stdinEnd] else [])

end IndexMjs

/-- Role label as the spec documents it, defined on the documented role set
{user, assistant}; any other role falls outside the spec's description. -/
def roleLabelSpec (r : Option String) : String :=
  if r = some "user" then "User"
  else if r = some "assistant" then "Assistant"
  else "<undocumented>"

/-- Message rendering as the spec's PromptBuilder section words it: each message
rendered as `<RoleLabel>: <content>`, joined by a blank line, preserving input order
(structural recursion over the ordered list, no reordering or deduplication). -/
def renderSpec : List Message → String
  | [] => ""
  | [m] => roleLabelSpec m.role ++ ": " ++ m.content
  | m :: m2 :: rest =>
    (roleLabelSpec m.role ++ ": " ++ m.content) ++ "\n\n" ++ renderSpec (m2 :: rest)

/-- PromptBuilder.build as the spec words it: prepend the header line
`System instructions: <systemPrompt>` followed by a blank line when the provider embeds
the system prompt and a non-empty one is supplied. -/
def buildPromptSpec (embed : Bool) (messages : List Message)
    (systemPrompt : Option String) : String :=
  match systemPrompt with
  | some s =>
    if embed = true ∧ s ≠ "" then
      "System instructions: " ++ s ++ "\n\n" ++ renderSpec messages
    else renderSpec messages
  | none => renderSpec messages

/-- A line parser that fails on every line: the behavior every registry parseStream
(each of which begins with `JSON.parse(line)`) exhibits on a line that is not valid
JSON. -/
def jsonRejectAll : List Char → Option (List (List Char)) := fun _ => none

/-- Request body of the C8 failing input: only the `tool` alias and one user message. -/
def c8Body : ChatBody :=
  { provider := none, tool := some "codex", model := none,
    messages := .arr [{ role := some "user", content := "hi" }], systemPrompt := none }

/-- Agreement on every component the data, close and error handlers read and write;
only the kill bookkeeping (procKilled, sigterms) may differ.  The response-close
handler touches exactly the other side of this split. -/
def EqVis (s t : SessionState) : Prop :=
  s.buffer = t.buffer ∧ s.textSent = t.textSent ∧ s.resEnded = t.resEnded ∧
    s.procExited = t.procExited ∧ s.wire = t.wire

theorem consHead_ne_nil (x : List Char) (ys : List (List Char)) : consHead x ys ≠ [] := by
  cases ys <;> simp [consHead]

theorem splitNl_ne_nil (s : List Char) : splitNl s ≠ [] := by
  induction s with
  | nil => simp [splitNl]
  | cons c cs ih =>
    simp only [splitNl]
    split
    · simp
    · exact consHead_ne_nil _ _

theorem getLastD_app {α : Type} (xs ys : List α) (h : ys ≠ []) (d : α) :
    (xs ++ ys).getLastD d = ys.getLastD d := by
  induction xs with
  | nil => rfl
  | cons a l ih =>
    have hne : l ++ ys ≠ [] := fun hc => h (List.append_eq_nil.mp hc).2
    cases hl : l ++ ys with
    | nil => exact absurd hl hne
    | cons b m =>
      have h1 : (l ++ ys).getLastD a = (l ++ ys).getLastD d := by
        rw [hl, List.getLastD_cons, List.getLastD_cons]
      rw [List.cons_append, List.getLastD_cons, h1, ih]

theorem dropLast_app {α : Type} (xs ys : List α) (h : ys ≠ []) :
    (xs ++ ys).dropLast = xs ++ ys.dropLast := by
  induction xs with
  | nil => rfl
  | cons a l ih =>
    have hne : l ++ ys ≠ [] := fun hc => h (List.append_eq_nil.mp hc).2
    cases hl : l ++ ys with
    | nil => exact absurd hl hne
    | cons b m => rw [List.cons_append, hl, List.dropLast_cons₂, ← hl, ih, List.cons_append]

theorem splitNl_cons_nl (cs : List Char) : splitNl ('\n' :: cs) = [] :: splitNl cs := by
  simp [splitNl]

theorem splitNl_cons_char (c : Char) (cs : List Char) (hc : ¬c = '\n') :
    splitNl (c :: cs) = consHead [c] (splitNl cs) := by
  simp [splitNl, hc]

theorem splitNl_append (a b : List Char) :
    splitNl (a ++ b)
      = (splitNl a).dropLast ++ consHead ((splitNl a).getLastD []) (splitNl b) := by
  induction a with
  | nil =>
    cases hSb : splitNl b with
    | nil => exact absurd hSb (splitNl_ne_nil b)
    | cons y ys => simp [splitNl, hSb, consHead]
  | cons c cs ih =>
    by_cases hc : c = '\n'
    · subst hc
      rw [List.cons_append, splitNl_cons_nl, splitNl_cons_nl, ih]
      cases hS : splitNl cs with
      | nil => exact absurd hS (splitNl_ne_nil cs)
      | cons s ss =>
        simp [List.dropLast_cons₂, List.getLastD_cons, List.cons_append]
    · rw [List.cons_append, splitNl_cons_char c _ hc, splitNl_cons_char c _ hc, ih]
      cases hS : splitNl cs with
      | nil => exact absurd hS (splitNl_ne_nil cs)
      | cons s ss =>
        cases ss with
        | nil =>
          cases hSb : splitNl b with
          | nil => exact absurd hSb (splitNl_ne_nil b)
          | cons y ys => simp [consHead, List.append_assoc]
        | cons s2 ss2 =>
          simp [consHead, List.dropLast_cons₂, List.getLastD_cons, List.cons_append]

theorem splitNl_of_nonl (l : List Char) (h : '\n' ∉ l) : splitNl l = [l] := by
  induction l with
  | nil => rfl
  | cons c cs ih =>
    have hc : ¬c = '\n' := fun hcc => h (by rw [hcc]; exact List.mem_cons_self _ _)
    simp only [splitNl, if_neg hc]
    rw [ih (fun hm => h (List.mem_cons_of_mem _ hm))]
    rfl

theorem nonl_splitNl_last (s : List Char) : '\n' ∉ (splitNl s).getLastD [] := by
  induction s with
  | nil => simp [splitNl]
  | cons c cs ih =>
    by_cases hc : c = '\n'
    · subst hc
      rw [splitNl_cons_nl, List.getLastD_cons]
      cases hS : splitNl cs with
      | nil => exact absurd hS (splitNl_ne_nil cs)
      | cons s ss =>
        rw [hS] at ih
        rw [List.getLastD_cons] at ih ⊢
        exact ih
    · rw [splitNl_cons_char c _ hc]
      cases hS : splitNl cs with
      | nil => exact absurd hS (splitNl_ne_nil cs)
      | cons s1 ss =>
        rw [hS] at ih
        cases ss with
        | nil =>
          simp only [consHead, List.getLastD_cons, List.getLastD_nil] at ih ⊢
          simp only [List.cons_append, List.nil_append, List.mem_cons]
          rintro (h1 | h2)
          · exact hc h1.symm
          · exact ih h2
        | cons s2 ss2 =>
          simp only [consHead, List.getLastD_cons] at ih ⊢
          exact ih

theorem splitNl_assoc (buf c1 c2 : List Char) :
    splitNl (buf ++ (c1 ++ c2))
      = (splitNl (buf ++ c1)).dropLast
        ++ splitNl ((splitNl (buf ++ c1)).getLastD [] ++ c2) := by
  rw [← List.append_assoc, splitNl_append (buf ++ c1) c2,
    splitNl_append ((splitNl (buf ++ c1)).getLastD []) c2,
    splitNl_of_nonl _ (nonl_splitNl_last (buf ++ c1))]
  simp

theorem dataFrags_append (parse : List Char → Option (List (List Char)))
    (l1 l2 : List (List Char)) :
    dataFrags parse (l1 ++ l2) = dataFrags parse l1 ++ dataFrags parse l2 := by
  simp [dataFrags]

theorem anyEmit_append (parse : List Char → Option (List (List Char)))
    (l1 l2 : List (List Char)) :
    anyEmit parse (l1 ++ l2) = (anyEmit parse l1 || anyEmit parse l2) := by
  simp [anyEmit]

theorem step_data_comp (parse : List Char → Option (List (List Char))) (pn : List Char)
    (st : SessionState) (c1 c2 : List Char) :
    step parse false pn (step parse false pn st (.data c1)) (.data c2)
      = step parse false pn st (.data (c1 ++ c2)) := by
  obtain ⟨buf, ts, pe, pk, re, w, sg⟩ := st
  have hS := splitNl_assoc buf c1 c2
  have h2 : splitNl ((splitNl (buf ++ c1)).getLastD [] ++ c2) ≠ [] := splitNl_ne_nil _
  cases re <;>
    simp only [step, Bool.false_eq_true, if_false, emitWrites, if_true, hS,
      getLastD_app _ _ h2, dropLast_app _ _ h2, dataFrags_append, anyEmit_append,
      List.map_append, List.append_assoc, Bool.or_assoc] <;>
    try simp

/-- C2 (amended): boundary invariance at character granularity. For every JSON-mode
line parser and every splitting of the decoded character stream into data chunks (that
is, every chunking whose boundaries do not cut a UTF-8 code point), delivering the
chunks one data event at a time drives the session to exactly the state produced by a
single data event carrying their concatenation: the dispatched line sequence, the
emitted fragments, the textSent flag and the rolling buffer are all chunking-invariant.
At raw byte granularity the invariance fails, because the handler decodes each Buffer
chunk in isolation — see the counterexample. -/
theorem char_chunking_boundary_invariance (parse : List Char → Option (List (List Char)))
    (pn : List Char) (st : SessionState) (chunks : List (List Char)) (h : chunks ≠ []) :
    List.foldl (fun s c => step parse false pn s (.data c)) st chunks
      = step parse false pn st (.data chunks.flatten) := by
  induction chunks generalizing st with
  | nil => exact absurd rfl h
  | cons c cs ih =>
    cases cs with
    | nil => simp
    | cons c2 cs2 =>
      rw [List.foldl_cons, ih _ (by simp), step_data_comp]
      simp

/-- Witness for the amended C2 theorem at a concrete chunking. -/
theorem char_chunking_boundary_invariance_witness :
    ([['a'], ['b', '\n'], ['c']] : List (List Char)) ≠ [] ∧
      List.foldl (fun s c => step jsonRejectAll false "claude".data s (.data c)) initState
          [['a'], ['b', '\n'], ['c']]
        = step jsonRejectAll false "claude".data initState
            (.data ([['a'], ['b', '\n'], ['c']] : List (List Char)).flatten) :=
  ⟨by decide,
    char_chunking_boundary_invariance jsonRejectAll "claude".data initState _ (by decide)⟩

/-- C2 counterexample at the byte level, refuting the claim as stated (over byte
streams and arbitrary read-chunk boundaries).  The stdout bytes C3 A9 0A are the UTF-8
encoding of a single accented character and a newline — a line on which every registry
parseStream throws, since it is not JSON.  Delivered as one chunk the pipeline emits
that character plus a newline as the fragment; delivered split between the two bytes of
the character, `data.toString()` decodes each half in isolation to U+FFFD and the
pipeline emits a different fragment sequence. -/
theorem byte_chunking_changes_fragments :
    (List.foldl (stepBytes jsonRejectAll false "claude".data) initState
        [[0xC3], [0xA9, 0x0A]]).wire
      ≠ (List.foldl (stepBytes jsonRejectAll false "claude".data) initState
          [[0xC3, 0xA9, 0x0A]]).wire := by
  decide

/-- C3: a complete line dispatched to a JSON-mode provider's parser whose parse fails
is forwarded (trimmed, with a trailing newline) as a single text fragment exactly when
its trimmed form does not begin with a brace or bracket; otherwise it yields no
fragment. -/
theorem parse_failure_fallback (parse : List Char → Option (List (List Char)))
    (line : List Char) (hline : jsTrim line ≠ []) (hp : parse line = none) :
    lineFragments parse line
      = if (jsTrim line).head? = some '{' ∨ (jsTrim line).head? = some '[' then []
        else [jsTrim line ++ ['\n']] := by
  have hmain : lineFragments parse line
      = if jsTrim line ≠ [] ∧ (jsTrim line).head? ≠ some '{' ∧ (jsTrim line).head? ≠ some '['
        then [jsTrim line ++ ['\n']] else [] := by
    simp only [lineFragments, hp]
    rw [if_neg hline]
  rw [hmain]
  by_cases hb : (jsTrim line).head? = some '{' ∨ (jsTrim line).head? = some '['
  · rw [if_pos hb, if_neg]
    rintro ⟨-, h2, h3⟩
    rcases hb with hb | hb
    · exact h2 hb
    · exact h3 hb
  · rw [if_neg hb, if_pos ⟨hline, fun h1 => hb (Or.inl h1), fun h1 => hb (Or.inr h1)⟩]

/-- Witness for C3 at a concrete non-JSON diagnostic line. -/
theorem parse_failure_fallback_witness :
    jsTrim " hi ".data ≠ [] ∧ jsonRejectAll " hi ".data = none ∧
      lineFragments jsonRejectAll " hi ".data
        = if (jsTrim " hi ".data).head? = some '{' ∨ (jsTrim " hi ".data).head? = some '['
          then [] else [jsTrim " hi ".data ++ ['\n']] :=
  ⟨by decide, rfl, parse_failure_fallback jsonRejectAll " hi ".data (by decide) rfl⟩

/-- C4: on process exit a non-empty residual buffer is processed exactly once more by
the close handler of a JSON-mode provider: it goes through the same parseStream; on
success exactly the parsed fragments (never additionally the raw residual) precede the
terminal marker, and on failure the raw trimmed residual is forwarded exactly when no
fragment has been emitted for the whole session (textSent still false). -/
theorem residual_flush_once (parse : List Char → Option (List (List Char)))
    (pn : List Char) (st : SessionState) (code : Int)
    (hre : st.resEnded = false) (hbuf : jsTrim st.buffer ≠ []) :
    (∀ frags, parse st.buffer = some frags →
        (step parse false pn st (.close code)).wire
          = st.wire ++ frags.map SSEWrite.text ++ [SSEWrite.done]) ∧
      (parse st.buffer = none →
        (step parse false pn st (.close code)).wire
          = st.wire ++ (if st.textSent then [] else [SSEWrite.text (jsTrim st.buffer)])
              ++ [SSEWrite.done]) := by
  constructor
  · intro frags hp
    simp [step, closeFrags, emitWrites, hre, hbuf, hp, List.append_assoc]
  · intro hp
    cases hts : st.textSent <;>
      simp [step, closeFrags, emitWrites, hre, hbuf, hp, hts, List.append_assoc]

/-- Witness for C4: a session with residual buffer content, no fragment sent yet, and a
parser that fails on the residual. -/
theorem residual_flush_once_witness :
    (step jsonRejectAll false []
        { buffer := ['x'], textSent := false, procExited := false, procKilled := false,
          resEnded := false, wire := [], sigterms := 0 } (.close 0)).wire
      = ([] : List SSEWrite)
          ++ (if false then [] else [SSEWrite.text (jsTrim ['x'])]) ++ [SSEWrite.done] :=
  (residual_flush_once jsonRejectAll []
    { buffer := ['x'], textSent := false, procExited := false, procKilled := false,
      resEnded := false, wire := [], sigterms := 0 } 0 rfl (by decide)).2 rfl

theorem step_resClose_vis (parse : List Char → Option (List (List Char))) (plain : Bool)
    (pn : List Char) (st : SessionState) :
    EqVis (step parse plain pn st Ev.resClose) st := by
  cases hpk : st.procKilled <;> cases hpe : st.procExited <;>
    simp [step, hpk, hpe, EqVis]

theorem step_vis_congr (parse : List Char → Option (List (List Char))) (plain : Bool)
    (pn : List Char) {s t : SessionState} (e : Ev) (he : e ≠ Ev.resClose)
    (h : EqVis s t) :
    EqVis (step parse plain pn s e) (step parse plain pn t e) := by
  obtain ⟨sb, sts, spe, spk, sre, sw, ssg⟩ := s
  obtain ⟨tb, tts, tpe, tpk, tre, tw, tsg⟩ := t
  obtain ⟨hb, hts, hre, hpe, hw⟩ := h
  simp only [EqVis] at hb hts hre hpe hw ⊢
  subst hb; subst hts; subst hre; subst hpe; subst hw
  cases e with
  | data c =>
    cases plain <;> simp [step, emitWrites] <;> split_ifs <;> simp
  | close code => simp [step, emitWrites] <;> split_ifs <;> simp
  | err => simp [step, emitWrites] <;> split_ifs <;> simp
  | resClose => exact absurd rfl he

theorem run_vis_congr (parse : List Char → Option (List (List Char))) (plain : Bool)
    (pn : List Char) (evs : List Ev) (hne : ∀ e ∈ evs, e ≠ Ev.resClose)
    {s1 s2 : SessionState} (h : EqVis s1 s2) :
    EqVis (runSession parse plain pn s1 evs) (runSession parse plain pn s2 evs) := by
  induction evs generalizing s1 s2 with
  | nil => exact h
  | cons e es ih =>
    exact ih (fun e' he' => hne e' (List.mem_cons_of_mem _ he'))
      (step_vis_congr parse plain pn e (hne e (List.mem_cons_self _ _)) h)

theorem procShape_no_resClose {t : List Ev} (h : ProcShape t) :
    ∀ e ∈ t, e ≠ Ev.resClose := by
  rcases h with ⟨chunks, code, rfl⟩ | ⟨code, rfl⟩
  · intro e he
    rcases List.mem_append.mp he with h1 | h1
    · obtain ⟨c, -, rfl⟩ := List.mem_map.mp h1
      simp
    · rw [List.mem_singleton.mp h1]
      simp
  · intro e he
    rcases List.mem_cons.mp he with rfl | h1
    · simp
    · rw [List.mem_singleton.mp h1]
      simp

theorem run_insert_resClose (parse : List Char → Option (List (List Char))) (plain : Bool)
    (pn : List Char) (t₁ t₂ : List Ev) (h₂ : ∀ e ∈ t₂, e ≠ Ev.resClose)
    (st : SessionState) :
    EqVis (runSession parse plain pn st (t₁ ++ Ev.resClose :: t₂))
      (runSession parse plain pn st (t₁ ++ t₂)) := by
  unfold runSession
  rw [List.foldl_append, List.foldl_append, List.foldl_cons]
  exact run_vis_congr parse plain pn t₂ h₂
    (step_resClose_vis parse plain pn (List.foldl (step parse plain pn) st t₁))

theorem countDone_append (w1 w2 : List SSEWrite) :
    countDone (w1 ++ w2) = countDone w1 + countDone w2 := by
  simp [countDone, List.countP_append]

theorem countDone_text_map (fs : List (List Char)) :
    countDone (fs.map SSEWrite.text) = 0 := by
  rw [countDone, List.countP_eq_zero]
  intro a ha
  obtain ⟨f, -, rfl⟩ := List.mem_map.mp ha
  simp [isDone]

theorem step_data_wire (parse : List Char → Option (List (List Char))) (plain : Bool)
    (pn : List Char) (st : SessionState) (c : List Char) (h1 : st.resEnded = false) :
    ∃ frags : List (List Char),
      (step parse plain pn st (Ev.data c)).wire = st.wire ++ frags.map SSEWrite.text := by
  cases plain
  · exact ⟨dataFrags parse (splitNl (st.buffer ++ c)).dropLast,
      by simp [step, emitWrites, h1]⟩
  · by_cases hc : c = []
    · exact ⟨[], by simp [step, emitWrites, h1, hc]⟩
    · exact ⟨[c], by simp [step, emitWrites, h1, hc]⟩

theorem step_data_p1 (parse : List Char → Option (List (List Char))) (plain : Bool)
    (pn : List Char) (st : SessionState) (c : List Char)
    (h1 : st.resEnded = false) (h2 : countDone st.wire = 0) :
    (step parse plain pn st (Ev.data c)).resEnded = false ∧
      countDone (step parse plain pn st (Ev.data c)).wire = 0 := by
  constructor
  · cases plain <;> simp [step, emitWrites, h1] <;> split_ifs <;> simp [h1]
  · obtain ⟨frags, hf⟩ := step_data_wire parse plain pn st c h1
    rw [hf, countDone_append, h2, countDone_text_map]

theorem step_close_p2 (parse : List Char → Option (List (List Char))) (plain : Bool)
    (pn : List Char) (st : SessionState) (code : Int)
    (h1 : st.resEnded = false) (h2 : countDone st.wire = 0) :
    (step parse plain pn st (Ev.close code)).resEnded = true ∧
      countDone (step parse plain pn st (Ev.close code)).wire = 1 ∧
      (step parse plain pn st (Ev.close code)).wire.getLast? = some SSEWrite.done := by
  have h2' : List.countP isDone st.wire = 0 := h2
  refine ⟨by simp [step, emitWrites, h1], ?_, ?_⟩
  · simp [step, emitWrites, h1, countDone, List.countP_append, h2', Function.comp, isDone]
  · simp only [step, emitWrites, h1, Bool.false_eq_true, if_false]
    rw [← List.append_assoc, List.getLast?_concat]

theorem step_err_p2 (parse : List Char → Option (List (List Char))) (plain : Bool)
    (pn : List Char) (st : SessionState)
    (h1 : st.resEnded = false) (h2 : countDone st.wire = 0) :
    (step parse plain pn st Ev.err).resEnded = true ∧
      countDone (step parse plain pn st Ev.err).wire = 1 ∧
      (step parse plain pn st Ev.err).wire.getLast? = some SSEWrite.done := by
  have h2' : List.countP isDone st.wire = 0 := h2
  refine ⟨by simp [step, emitWrites, h1], ?_, ?_⟩
  · simp [step, emitWrites, h1, countDone, List.countP_append, h2', isDone]
  · simp only [step, emitWrites, h1, Bool.false_eq_true, if_false]
    rw [show [SSEWrite.errorEv (failMsg pn), SSEWrite.done]
        = [SSEWrite.errorEv (failMsg pn)] ++ [SSEWrite.done] from rfl,
      ← List.append_assoc, List.getLast?_concat]

theorem step_ended_wire (parse : List Char → Option (List (List Char))) (plain : Bool)
    (pn : List Char) (st : SessionState) (e : Ev) (h : st.resEnded = true) :
    (step parse plain pn st e).resEnded = true ∧
      (step parse plain pn st e).wire = st.wire := by
  cases e with
  | data c => cases plain <;> simp [step, emitWrites, h] <;> split_ifs <;> simp [h]
  | close code => simp [step, emitWrites, h]
  | err => simp [step, emitWrites, h]
  | resClose =>
    cases hpk : st.procKilled <;> cases hpe : st.procExited <;> simp [step, hpk, hpe, h]

theorem run_datas_p1 (parse : List Char → Option (List (List Char))) (plain : Bool)
    (pn : List Char) (chunks : List (List Char)) (st : SessionState)
    (h1 : st.resEnded = false) (h2 : countDone st.wire = 0) :
    (List.foldl (step parse plain pn) st (chunks.map Ev.data)).resEnded = false ∧
      countDone (List.foldl (step parse plain pn) st (chunks.map Ev.data)).wire = 0 := by
  induction chunks generalizing st with
  | nil => exact ⟨h1, h2⟩
  | cons c cs ih =>
    obtain ⟨g1, g2⟩ := step_data_p1 parse plain pn st c h1 h2
    exact ih _ g1 g2

theorem run_procShape_done (parse : List Char → Option (List (List Char))) (plain : Bool)
    (pn : List Char) {t : List Ev} (h : ProcShape t) :
    countDone (runSession parse plain pn initState t).wire = 1 ∧
      (runSession parse plain pn initState t).wire.getLast? = some SSEWrite.done := by
  rcases h with ⟨chunks, code, rfl⟩ | ⟨code, rfl⟩
  · unfold runSession
    rw [List.foldl_append, List.foldl_cons, List.foldl_nil]
    obtain ⟨g1, g2⟩ := run_datas_p1 parse plain pn chunks initState rfl rfl
    obtain ⟨-, g3, g4⟩ := step_close_p2 parse plain pn _ code g1 g2
    exact ⟨g3, g4⟩
  · unfold runSession
    rw [List.foldl_cons, List.foldl_cons, List.foldl_nil]
    obtain ⟨e1, e2, e3⟩ := step_err_p2 parse plain pn initState rfl rfl
    obtain ⟨-, w2⟩ := step_ended_wire parse plain pn _ (Ev.close code) e1
    rw [w2]
    exact ⟨e2, e3⟩

/-- C1: on every admissible session trace — normal process exit after any stdout
activity (including a residual-buffer flush), spawn failure, and with or without a
client cancellation at any point — the wire carries exactly one terminal marker and it
is the last write. -/
theorem sse_terminal_marker_exactly_once (parse : List Char → Option (List (List Char)))
    (plain : Bool) (pn : List Char) (t : List Ev) (h : Admissible t) :
    countDone (runSession parse plain pn initState t).wire = 1 ∧
      (runSession parse plain pn initState t).wire.getLast? = some SSEWrite.done := by
  rcases h with hp | ⟨t₁, t₂, hp, rfl⟩
  · exact run_procShape_done parse plain pn hp
  · have h₂ : ∀ e ∈ t₂, e ≠ Ev.resClose := fun e he =>
      procShape_no_resClose hp e (List.mem_append.mpr (Or.inr he))
    obtain ⟨-, -, -, -, hw⟩ := run_insert_resClose parse plain pn t₁ t₂ h₂ initState
    rw [hw]
    exact run_procShape_done parse plain pn hp

/-- Witness for C1 on a concrete normal trace: one stdout chunk, then process exit. -/
theorem sse_terminal_marker_exactly_once_witness :
    Admissible [Ev.data ['x', '\n'], Ev.close 0] ∧
      countDone (runSession jsonRejectAll false "claude".data initState
          [Ev.data ['x', '\n'], Ev.close 0]).wire = 1 ∧
      (runSession jsonRejectAll false "claude".data initState
          [Ev.data ['x', '\n'], Ev.close 0]).wire.getLast? = some SSEWrite.done :=
  ⟨Or.inl (Or.inl ⟨[['x', '\n']], 0, rfl⟩),
    sse_terminal_marker_exactly_once jsonRejectAll false "claude".data _
      (Or.inl (Or.inl ⟨[['x', '\n']], 0, rfl⟩))⟩

theorem step_data_kill_fields (parse : List Char → Option (List (List Char)))
    (plain : Bool) (pn : List Char) (st : SessionState) (c : List Char) :
    (step parse plain pn st (Ev.data c)).procExited = st.procExited ∧
      (step parse plain pn st (Ev.data c)).procKilled = st.procKilled ∧
      (step parse plain pn st (Ev.data c)).sigterms = st.sigterms := by
  cases plain <;> simp [step, emitWrites] <;> split_ifs <;> simp

theorem step_close_kill_fields (parse : List Char → Option (List (List Char)))
    (plain : Bool) (pn : List Char) (st : SessionState) (code : Int) :
    (step parse plain pn st (Ev.close code)).procExited = true ∧
      (step parse plain pn st (Ev.close code)).procKilled = st.procKilled ∧
      (step parse plain pn st (Ev.close code)).sigterms = st.sigterms := by
  simp [step, emitWrites] <;> split_ifs <;> simp

theorem run_datas_kill_fields (parse : List Char → Option (List (List Char)))
    (plain : Bool) (pn : List Char) (chunks : List (List Char)) (st : SessionState) :
    (List.foldl (step parse plain pn) st (chunks.map Ev.data)).procExited = st.procExited ∧
      (List.foldl (step parse plain pn) st (chunks.map Ev.data)).procKilled
        = st.procKilled ∧
      (List.foldl (step parse plain pn) st (chunks.map Ev.data)).sigterms = st.sigterms := by
  induction chunks generalizing st with
  | nil => exact ⟨rfl, rfl, rfl⟩
  | cons c cs ih =>
    obtain ⟨g1, g2, g3⟩ := step_data_kill_fields parse plain pn st c
    obtain ⟨i1, i2, i3⟩ := ih (step parse plain pn st (Ev.data c))
    exact ⟨i1.trans g1, i2.trans g2, i3.trans g3⟩

/-- C9: client cancellation signals the subprocess exactly once.  First conjunct: on a
trace where the response closes strictly before the process exits, exactly one SIGTERM
is delivered over the whole session.  Second conjunct: a response close arriving after
the process already exited changes nothing at all (`proc.kill` on an exited process is
a no-op, not an error).  Third conjunct: the `if (!proc.killed)` guard — a session
already marked killed is never signalled again. -/
theorem sigterm_on_client_disconnect (parse : List Char → Option (List (List Char)))
    (plain : Bool) (pn : List Char) :
    (∀ (chunks1 chunks2 : List (List Char)) (code : Int),
        (runSession parse plain pn initState
            (chunks1.map Ev.data
              ++ Ev.resClose :: (chunks2.map Ev.data ++ [Ev.close code]))).sigterms = 1)
    ∧ (∀ (chunks : List (List Char)) (code : Int),
        runSession parse plain pn initState
            (chunks.map Ev.data ++ [Ev.close code] ++ [Ev.resClose])
          = runSession parse plain pn initState (chunks.map Ev.data ++ [Ev.close code]))
    ∧ (∀ st : SessionState, st.procKilled = true →
        step parse plain pn st Ev.resClose = st) := by
  refine ⟨?_, ?_, ?_⟩
  · intro chunks1 chunks2 code
    unfold runSession
    rw [List.foldl_append, List.foldl_cons, List.foldl_append, List.foldl_cons,
      List.foldl_nil]
    obtain ⟨k1, k2, k3⟩ := run_datas_kill_fields parse plain pn chunks1 initState
    set st1 := List.foldl (step parse plain pn) initState (chunks1.map Ev.data) with hst1
    have hrc : (step parse plain pn st1 Ev.resClose).sigterms = 1 ∧
        (step parse plain pn st1 Ev.resClose).procKilled = true := by
      simp [step, k1, k2, k3, initState]
    obtain ⟨r1, r2⟩ := hrc
    obtain ⟨m1, m2, m3⟩ :=
      run_datas_kill_fields parse plain pn chunks2 (step parse plain pn st1 Ev.resClose)
    obtain ⟨c1, c2, c3⟩ := step_close_kill_fields parse plain pn
      (List.foldl (step parse plain pn) (step parse plain pn st1 Ev.resClose)
        (chunks2.map Ev.data)) code
    rw [c3, m3, r1]
  · intro chunks code
    have hA : (List.foldl (step parse plain pn) initState
          (chunks.map Ev.data ++ [Ev.close code])).procExited = true ∧
        (List.foldl (step parse plain pn) initState
          (chunks.map Ev.data ++ [Ev.close code])).procKilled = false := by
      rw [List.foldl_append, List.foldl_cons, List.foldl_nil]
      obtain ⟨k1, k2, k3⟩ := run_datas_kill_fields parse plain pn chunks initState
      obtain ⟨c1, c2, c3⟩ := step_close_kill_fields parse plain pn
        (List.foldl (step parse plain pn) initState (chunks.map Ev.data)) code
      exact ⟨c1, by rw [c2, k2]; rfl⟩
    unfold runSession
    rw [List.foldl_append (l := chunks.map Ev.data ++ [Ev.close code]),
      List.foldl_cons, List.foldl_nil]
    simp [step, hA.1, hA.2]
  · intro st h
    simp [step, h]

/-- Witness for C9 at concrete traces: a cancellation right after one stdout chunk and
before process exit, a cancellation after process exit, and the guard on an
already-killed state. -/
theorem sigterm_on_client_disconnect_witness :
    (runSession jsonRejectAll false "claude".data initState
        ([['h']].map Ev.data ++ Ev.resClose :: ([].map Ev.data ++ [Ev.close 0]))).sigterms
      = 1 ∧
    runSession jsonRejectAll false "claude".data initState
        ([['h']].map Ev.data ++ [Ev.close 0] ++ [Ev.resClose])
      = runSession jsonRejectAll false "claude".data initState
        ([['h']].map Ev.data ++ [Ev.close 0]) ∧
    ({ buffer := [], textSent := false, procExited := false, procKilled := true,
        resEnded := false, wire := [], sigterms := 1 } : SessionState).procKilled = true ∧
    step jsonRejectAll false "claude".data
        { buffer := [], textSent := false, procExited := false, procKilled := true,
          resEnded := false, wire := [], sigterms := 1 } Ev.resClose
      = { buffer := [], textSent := false, procExited := false, procKilled := true,
          resEnded := false, wire := [], sigterms := 1 } :=
  ⟨(sigterm_on_client_disconnect jsonRejectAll false "claude".data).1 [['h']] [] 0,
    (sigterm_on_client_disconnect jsonRejectAll false "claude".data).2.1 [['h']] 0,
    rfl,
    (sigterm_on_client_disconnect jsonRejectAll false "claude".data).2.2
      { buffer := [], textSent := false, procExited := false, procKilled := true,
        resEnded := false, wire := [], sigterms := 1 } rfl⟩

/-- C5: a POST /chat request whose messages field is missing, not an array or empty is
answered by only the 400 JSON error — no SSE header is set or flushed and no
subprocess is spawned — and likewise a request with valid messages but an unregistered
provider name, whose 400 body carries the full set of valid provider names.  Both
entry points behave this way. -/
theorem validation_rejects_before_streaming (b : ChatBody) :
    (messagesInvalid b.messages = true →
        chatEffects b = [Effect.status400 "messages array required" none]
          ∧ IndexMjs.chatEffects b = [Effect.status400 "messages array required" none])
    ∧ (messagesInvalid b.messages = false →
        (List.lookup (providerNameOf b) CLI_TOOLS = none →
          chatEffects b
            = [Effect.status400 ("Unknown provider: " ++ providerNameOf b)
                (some ["claude", "codex", "gemini"])])
        ∧ (List.lookup (IndexMjs.providerNameOf b) IndexMjs.CLI_TOOLS = none →
          IndexMjs.chatEffects b
            = [Effect.status400 ("Unknown provider: " ++ IndexMjs.providerNameOf b)
                (some ["claude", "codex", "gemini"])])) := by
  refine ⟨fun h => ⟨?_, ?_⟩, fun h => ⟨fun hl => ?_, fun hl => ?_⟩⟩
  · simp [chatEffects, h]
  · simp [IndexMjs.chatEffects, h]
  · simp only [chatEffects, h, Bool.false_eq_true, if_false, hl]
    simp [CLI_TOOLS]
  · simp only [IndexMjs.chatEffects, h, Bool.false_eq_true, if_false, hl]
    simp [IndexMjs.CLI_TOOLS]

/-- Witness for C5: a request without messages, and a request naming a provider that
is not registered. -/
theorem validation_rejects_before_streaming_witness :
    chatEffects (⟨none, none, none, MessagesField.missing, none⟩ : ChatBody)
      = [Effect.status400 "messages array required" none] ∧
    chatEffects
        (⟨some "gpt", none, none, MessagesField.arr [⟨some "user", "hi"⟩], none⟩ : ChatBody)
      = [Effect.status400
          ("Unknown provider: " ++ providerNameOf
            (⟨some "gpt", none, none, MessagesField.arr [⟨some "user", "hi"⟩], none⟩ :
              ChatBody))
          (some ["claude", "codex", "gemini"])] :=
  ⟨((validation_rejects_before_streaming
      (⟨none, none, none, MessagesField.missing, none⟩ : ChatBody)).1 rfl).1,
    ((validation_rejects_before_streaming
      (⟨some "gpt", none, none, MessagesField.arr [⟨some "user", "hi"⟩], none⟩ :
        ChatBody)).2 rfl).1 rfl⟩

theorem joinSep_renderSpec (msgs : List Message)
    (hroles : ∀ m ∈ msgs, m.role = some "user" ∨ m.role = some "assistant") :
    joinSep "\n\n" (msgs.map renderMessage) = renderSpec msgs := by
  induction msgs with
  | nil => rfl
  | cons m rest ih =>
    have hrender : renderMessage m = roleLabelSpec m.role ++ ": " ++ m.content := by
      rcases hroles m (List.mem_cons_self _ _) with hu | ha
      · simp [renderMessage, roleLabelSpec, hu]
      · simp [renderMessage, roleLabelSpec, ha]
    cases rest with
    | nil => simp [joinSep, renderSpec, hrender]
    | cons m2 rest2 =>
      simp only [List.map_cons, joinSep, renderSpec]
      rw [hrender, ← ih (fun x hx => hroles x (List.mem_cons_of_mem _ hx))]
      simp [joinSep]

/-- C6: for a non-empty message list whose roles are the documented ones, the prompt
built by the Router entry point coincides with the spec-side PromptBuilder: every
message rendered as `<RoleLabel>: <content>` with User/Assistant labels, joined by a
blank line in input order, and the `System instructions:` header plus blank line
prepended exactly when the provider embeds the system prompt and a non-empty one is
supplied. -/
theorem build_prompt_matches_documented_rendering (cliTool : CliTool)
    (msgs : List Message) (systemPrompt : Option String) (hne : msgs ≠ [])
    (hroles : ∀ m ∈ msgs, m.role = some "user" ∨ m.role = some "assistant") :
    buildPrompt cliTool msgs systemPrompt
      = buildPromptSpec cliTool.embedSystemPrompt msgs systemPrompt := by
  unfold buildPrompt buildPromptSpec
  cases systemPrompt with
  | none => simp [jsTruthy, joinSep_renderSpec msgs hroles]
  | some s =>
    by_cases hs : s = ""
    · simp [jsTruthy, hs, joinSep_renderSpec msgs hroles]
    · by_cases he : cliTool.embedSystemPrompt
      · simp [jsTruthy, hs, he, joinSep_renderSpec msgs hroles, Option.getD]
      · simp [jsTruthy, hs, he, joinSep_renderSpec msgs hroles]

/-- Witness for C6: codex (an embedding provider) with a two-message conversation and
a system prompt. -/
theorem build_prompt_matches_documented_rendering_witness :
    ([⟨some "user", "hi"⟩, ⟨some "assistant", "yo"⟩] : List Message) ≠ [] ∧
      buildPrompt codexTool [⟨some "user", "hi"⟩, ⟨some "assistant", "yo"⟩] (some "S")
        = buildPromptSpec codexTool.embedSystemPrompt
            [⟨some "user", "hi"⟩, ⟨some "assistant", "yo"⟩] (some "S") :=
  ⟨by decide,
    build_prompt_matches_documented_rendering codexTool _ (some "S") (by decide)
      (by decide)⟩

/-- C7: the system prompt reaches the subprocess exactly once.  In both registries a
provider with embedSystemPrompt = false never receives it in the prompt text
(buildPrompt reduces to the plain rendering for every system prompt) and a truthy
system prompt extends its argv by exactly one dedicated flag-and-value pair, while a
provider with embedSystemPrompt = true has an argv completely independent of the
system prompt; so it never appears both embedded and in the argument vector. -/
theorem system_prompt_delivered_once :
    (∀ name cliTool, (name, cliTool) ∈ CLI_TOOLS →
        (cliTool.embedSystemPrompt = false →
          (∀ msgs sys,
              buildPrompt cliTool msgs sys = joinSep "\n\n" (msgs.map renderMessage))
            ∧ (∀ model s, s ≠ "" → ∃ flag,
                cliTool.buildArgs model (some s)
                  = cliTool.buildArgs model none ++ [flag, s]))
          ∧ (cliTool.embedSystemPrompt = true →
            ∀ model sys, cliTool.buildArgs model sys = cliTool.buildArgs model none))
    ∧ (∀ name cliTool, (name, cliTool) ∈ IndexMjs.CLI_TOOLS →
        cliTool.embedSystemPrompt = false
          ∧ ∀ model s, s ≠ "" → ∃ flag,
              cliTool.buildArgs model (some s)
                = cliTool.buildArgs model none ++ [flag, s]) := by
  constructor
  · intro name cliTool hmem
    simp only [CLI_TOOLS, List.mem_cons, List.not_mem_nil, or_false, Prod.mk.injEq] at hmem
    rcases hmem with ⟨-, rfl⟩ | ⟨-, rfl⟩ | ⟨-, rfl⟩
    · refine ⟨fun _ => ⟨fun msgs sys => by simp [buildPrompt, claudeTool], ?_⟩,
        fun he => by simp [claudeTool] at he⟩
      intro model s hs
      exact ⟨"--system-prompt", by simp [claudeTool, pushIf, hs]⟩
    · exact ⟨fun hf => by simp [codexTool] at hf, fun _ model sys => rfl⟩
    · exact ⟨fun hf => by simp [geminiTool] at hf, fun _ model sys => rfl⟩
  · intro name cliTool hmem
    simp only [IndexMjs.CLI_TOOLS, List.mem_cons, List.not_mem_nil, or_false,
      Prod.mk.injEq] at hmem
    rcases hmem with ⟨-, rfl⟩ | ⟨-, rfl⟩ | ⟨-, rfl⟩
    · exact ⟨rfl, fun model s hs =>
        ⟨"--system-prompt", by simp [IndexMjs.claudeTool, pushIf, hs]⟩⟩
    · exact ⟨rfl, fun model s hs =>
        ⟨"--instructions", by simp [IndexMjs.codexTool, pushIf, hs]⟩⟩
    · exact ⟨rfl, fun model s hs =>
        ⟨"--system-instruction", by simp [IndexMjs.geminiTool, pushIf, hs]⟩⟩

/-- Witness for C7: claude with a concrete system prompt gets the dedicated flag, and
codex's argv ignores the system prompt entirely. -/
theorem system_prompt_delivered_once_witness :
    claudeTool.embedSystemPrompt = false ∧
      (∃ flag, claudeTool.buildArgs none (some "be brief")
        = claudeTool.buildArgs none none ++ [flag, "be brief"]) ∧
      codexTool.embedSystemPrompt = true ∧
      codexTool.buildArgs none (some "be brief") = codexTool.buildArgs none none :=
  ⟨rfl,
    ((system_prompt_delivered_once.1 "claude" claudeTool
        (List.mem_cons_self _ _)).1 rfl).2 none "be brief" (by decide),
    rfl,
    (system_prompt_delivered_once.1 "codex" codexTool
        (by simp [CLI_TOOLS])).2 rfl none (some "be brief")⟩

/-- C8 evidence at the failing input (JSON body carrying only `tool: "codex"` and one
user message, `provider` absent): the Router entry point resolves the tool alias and
spawns the codex binary, while index.mjs never reads the tool field, falls back to the
default and spawns claude — although the repository README documents tool as an alias
for provider.  With neither field present both entry points default to claude. -/
theorem tool_alias_divergence_at_failing_input :
    providerNameOf c8Body = "codex" ∧
      Effect.spawn "codex" ["exec", "--json"] ∈ chatEffects c8Body ∧
      IndexMjs.providerNameOf c8Body = "claude" ∧
      Effect.spawn "claude" ["-p", "--output-format", "stream-json", "--verbose"]
        ∈ IndexMjs.chatEffects c8Body ∧
      providerNameOf { c8Body with tool := none } = "claude" ∧
      IndexMjs.providerNameOf { c8Body with tool := none } = "claude" := by
  refine ⟨rfl, ?_, rfl, ?_, rfl, rfl⟩
  · decide
  · decide

/-- C10: a message whose role is anything but the exact string user — assistant,
any other string, or a missing role — renders with the Assistant label, and the /chat
handler never validates or rejects on roles: any non-empty message list with a
registered provider proceeds to streaming, with no 400 response among its effects. -/
theorem non_user_roles_render_assistant :
    (∀ m : Message, m.role ≠ some "user" →
        renderMessage m = "Assistant: " ++ m.content)
    ∧ (∀ (b : ChatBody) (ms : List Message), b.messages = MessagesField.arr ms →
        ms ≠ [] → (List.lookup (providerNameOf b) CLI_TOOLS).isSome = true →
        ∀ e avail, Effect.status400 e avail ∉ chatEffects b) := by
  constructor
  · intro m hm
    rw [renderMessage, if_neg hm]
    rfl
  · intro b ms hms hne hlookup e avail
    have hmi : messagesInvalid b.messages = false := by
      rw [hms]
      simp [messagesInvalid, hne]
    obtain ⟨cliTool, hl⟩ := Option.isSome_iff_exists.mp hlookup
    simp only [chatEffects, hmi, Bool.false_eq_true, if_false, hl]
    intro hmem
    rcases List.mem_append.mp hmem with h1 | h1
    · simp at h1
    · by_cases him : cliTool.inputMode = "stdin" <;> simp [him] at h1

/-- Witness for C10: an undocumented role string passes through with the Assistant
label and is not rejected. -/
theorem non_user_roles_render_assistant_witness :
    (Message.mk (some "banana") "x").role ≠ some "user" ∧
      renderMessage ⟨some "banana", "x"⟩ = "Assistant: " ++ "x" ∧
      Effect.status400 "messages array required" none
        ∉ chatEffects
            (⟨some "claude", none, none, MessagesField.arr [⟨some "banana", "x"⟩], none⟩ :
              ChatBody) :=
  ⟨by decide,
    non_user_roles_render_assistant.1 ⟨some "banana", "x"⟩ (by decide),
    non_user_roles_render_assistant.2
      (⟨some "claude", none, none, MessagesField.arr [⟨some "banana", "x"⟩], none⟩ :
        ChatBody)
      [⟨some "banana", "x"⟩] rfl (by decide) rfl "messages array required" none⟩

end CliBridge
